import Mathlib

/-!
Verification of `camply/notifications/pushbullet.py`: a shallow embedding of the
Pushbullet notification adapter together with proofs about it.

The module under study formats availability records into text notifications and
delivers them by HTTP POST.  The embedding models the outside world as a
response oracle (`net`): every outgoing POST is recorded in a trace, and the
oracle supplies the `requests.Response` the service would return.  Python
exceptions become `Except` results.
-/

namespace Camply

/-- A JSON-serializable value, as carried in the keyword options and the
outgoing payload. -/
inductive JsonValue where
  | str (s : String)
  | num (n : Int)
  | bool (b : Bool)
  | null
  deriving DecidableEq

/-- Python `dict` lookup on an association list (first match wins; a Python
dict never holds duplicate keys). -/
def dictLookup (k : String) : List (String × α) → Option α
  | [] => none
  | p :: rest => if p.1 == k then some p.2 else dictLookup k rest

/-- Python `dict.update({k: v})`: replace the value in place when the key is
present, otherwise append the new entry at the end (insertion order). -/
def dictUpdate (d : List (String × α)) (k : String) (v : α) : List (String × α) :=
  if d.any (fun p => p.1 == k) then
    d.map (fun p => if p.1 == k then (k, v) else p)
  else
    d ++ [(k, v)]

/-- Python `dict.copy()`: a fresh dict holding the same entries.  In this
functional embedding the copy is the same value; what matters is that later
`update` calls act on the copy, leaving the original configuration binding
untouched. -/
def dictCopy (d : List (String × α)) : List (String × α) := d

/-- Left-pad the decimal rendering of `n` with zeros to `width` digits. -/
def padNum (width : Nat) (n : Nat) : String :=
  let s := toString n
  String.mk (List.replicate (width - s.length) '0') ++ s

/-- Modelled from the spec: the booking dates of an Availability Record are
datetime values; the code only ever formats their date part with
`strftime("%Y-%m-%d")`, so the model keeps year, month and day. -/
structure PyDatetime where
  year : Nat
  month : Nat
  day : Nat
  deriving DecidableEq

/-- `datetime.strftime("%Y-%m-%d")`: zero-padded `YYYY-MM-DD`. -/
def PyDatetime.strftimeYMD (d : PyDatetime) : String :=
  padNum 4 d.year ++ "-" ++ padNum 2 d.month ++ "-" ++ padNum 2 d.day

/-- A value stored in one field of an Availability Record. -/
inductive FieldValue where
  | str (s : String)
  | num (n : Int)
  | datetime (d : PyDatetime)
  deriving DecidableEq

/-- Python `str(value)` as used by the f-string `f"{formatted_key}: {value}"`.
`str(datetime)` of a midnight datetime is `"YYYY-MM-DD 00:00:00"`. -/
def FieldValue.render : FieldValue → String
  | .str s => s
  | .num n => toString n
  | .datetime d => d.strftimeYMD ++ " 00:00:00"

/-- Modelled from the spec: the configuration collaborator
(`camply.config.PushbulletConfig` is not among the given sources).  Per the
spec the credential is "an access token string and a fixed set of HTTP
headers", "read once at construction from process configuration; immutable
thereafter", plus the service's fixed endpoint.  The token is `Option String`:
`none` models an absent (`None`) configuration value. -/
structure PushbulletConfig where
  API_TOKEN : Option String
  API_HEADERS : List (String × String)
  PUSHBULLET_API_ENDPOINT : String
  deriving DecidableEq

/-- Modelled from the spec: `camply.config.CampsiteContainerFields.BOOKING_URL`
(not among the given sources); the spec names the booking-URL field
`booking_url`. -/
def CampsiteContainerFields.BOOKING_URL : String := "booking_url"

/-- Modelled from the spec: `CampsiteContainerFields.BOOKING_DATE`. -/
def CampsiteContainerFields.BOOKING_DATE : String := "booking_date"

/-- Modelled from the spec: `CampsiteContainerFields.BOOKING_END_DATE`. -/
def CampsiteContainerFields.BOOKING_END_DATE : String := "booking_end_date"

/-- Modelled from the spec: the Availability Record
(`camply.containers.AvailableCampsite` is not among the given sources).  Per
the spec it is "a structured value with named fields (recreation area name,
facility name, booking start date, booking end date, booking URL, and other
descriptive fields)".  `other_fields` holds the remaining descriptive fields in
their declared order. -/
structure AvailableCampsite where
  recreation_area : String
  facility_name : String
  booking_date : PyDatetime
  booking_end_date : PyDatetime
  booking_url : String
  other_fields : List (String × FieldValue)
  deriving DecidableEq

/-- Modelled from the spec: `campsite.dict()`, the record "convertible to an
ordered mapping of field name → value".  The spec fixes no particular order;
the five required fields come first, then the other descriptive fields in
their declared order. -/
def AvailableCampsite.dict (c : AvailableCampsite) : List (String × FieldValue) :=
  [("recreation_area", .str c.recreation_area),
   ("facility_name", .str c.facility_name),
   ("booking_date", .datetime c.booking_date),
   ("booking_end_date", .datetime c.booking_end_date),
   ("booking_url", .str c.booking_url)] ++ c.other_fields

/-- Python `key.replace("_", " ")` for the one-character pattern the source
uses: a character map. -/
def pyUnderscoreToSpace (s : String) : String :=
  String.mk (s.data.map (fun c => if c = '_' then ' ' else c))

/-- Python `str.title()` on ASCII text: the first letter of each alphabetic
run is uppercased, subsequent letters are lowercased, and any non-letter ends
the run.  The boolean carries whether the previous character was a letter. -/
def pyTitleAux : Bool → List Char → List Char
  | _, [] => []
  | prev, c :: cs =>
    if c.isAlpha then
      (if prev then c.toLower else c.toUpper) :: pyTitleAux true cs
    else
      c :: pyTitleAux false cs

/-- Python `str.title()`. -/
def pyTitle (s : String) : String := String.mk (pyTitleAux false s.data)

/-- The `requests.Response` data this module consumes: status code and body
text. -/
structure HttpResponse where
  status_code : Nat
  text : String
  deriving DecidableEq

/-- `requests.Response.raise_for_status()` raises `requests.HTTPError` exactly
for client-error and server-error status codes, i.e. codes in `[400, 600)`. -/
def HttpResponse.isErrorStatus (r : HttpResponse) : Prop :=
  400 ≤ r.status_code ∧ r.status_code < 600

instance (r : HttpResponse) : Decidable r.isErrorStatus :=
  inferInstanceAs (Decidable (_ ∧ _))

/-- One outgoing `requests.post(url=…, headers=…, json=…)` call.  Header
values are `Option String` because a Python dict entry may hold `None` (the
source writes the raw `API_TOKEN` into the `Access-Token` header). -/
structure PostCall where
  url : String
  headers : List (String × Option String)
  json : List (String × JsonValue)
  deriving DecidableEq

/-- The `requests.HTTPError` produced by `raise_for_status()`. -/
structure HttpStatusError where
  status_code : Nat
  deriving DecidableEq

/-- An exception escaping `send_message` / `send_campsites`. -/
inductive SendError where
  /-- `raise ConnectionError(response.text) from he`: the message is the
  response body text and the cause is the underlying `HTTPError`. -/
  | delivery (message : String) (cause : HttpStatusError)
  /-- `dict(type=…, title=…, body=message, **kwargs)` raises `TypeError` when
  `kwargs` itself contains the key `"body"` (duplicate keyword argument). -/
  | typeError
  /-- `value.strftime(…)` on a value that is not a datetime raises
  `AttributeError`. -/
  | attributeError
  deriving DecidableEq

/-- Result of one `send_message` call: the configuration state after the call,
the POST calls issued, and the returned response or escaped exception. -/
structure SendResult where
  config : PushbulletConfig
  calls : List PostCall
  result : Except SendError HttpResponse

/-- `PushbulletNotifications.send_message(message, **kwargs)`.

Embeds, line for line: copy the base headers and update them with the
`Access-Token` entry; pop `type` (default `"note"`) and `title` (default
`"Camply Notification"`) from the keyword options; build the payload
`dict(type=…, title=…, body=message, **kwargs)` (a `TypeError` when the
remaining options still hold the key `"body"`); POST it to the fixed endpoint;
`raise_for_status`, turning an HTTP error into
`ConnectionError(response.text) from he`; otherwise return the response.
`net` is the environment: the response the service gives to the call. -/
def send_message (cfg : PushbulletConfig) (message : String)
    (kwargs : List (String × JsonValue)) (net : PostCall → HttpResponse) :
    SendResult :=
  let pushbullet_headers :=
    dictUpdate (dictCopy (cfg.API_HEADERS.map (fun p => (p.1, some p.2))))
      "Access-Token" cfg.API_TOKEN
  let message_type := (dictLookup "type" kwargs).getD (JsonValue.str "note")
  let message_title := (dictLookup "title" kwargs).getD (JsonValue.str "Camply Notification")
  let rest := kwargs.filter (fun p => !(p.1 == "type") && !(p.1 == "title"))
  if rest.any (fun p => p.1 == "body") then
    { config := cfg, calls := [], result := .error .typeError }
  else
    let message_json : List (String × JsonValue) :=
      ("type", message_type) :: ("title", message_title) ::
        ("body", JsonValue.str message) :: rest
    let call : PostCall :=
      { url := cfg.PUSHBULLET_API_ENDPOINT
        headers := pushbullet_headers
        json := message_json }
    let response := net call
    if response.isErrorStatus then
      { config := cfg, calls := [call],
        result := .error (.delivery response.text ⟨response.status_code⟩) }
    else
      { config := cfg, calls := [call], result := .ok response }

/-- The message of the `EnvironmentError` raised by
`PushbulletNotifications.__init__` (the three concatenated string literals of
the source). -/
def pushbullet_warning_message : String :=
  "Pushbullet is not configured properly. To send Pushbullet messages " ++
  "make sure to run `camply configure` or set the " ++
  "proper environment variable: `PUSHBULLET_API_TOKEN`."

/-- `PushbulletNotifications.__init__`: raise `EnvironmentError` when
`any([API_TOKEN is None, API_TOKEN == ""])`.  The first component is the trace
of POST calls the constructor issues; the constructor contains no network
operation, so it is `[]` on every path. -/
def pushbullet_init (cfg : PushbulletConfig) :
    List PostCall × Except String Unit :=
  if cfg.API_TOKEN = none ∨ cfg.API_TOKEN = some "" then
    ([], .error pushbullet_warning_message)
  else
    ([], .ok ())

/-- The body of the field loop in `send_campsites`: rename `booking_url` to
`booking_link`; for `booking_date` / `booking_end_date` replace the value by
`value.strftime("%Y-%m-%d")` (an `AttributeError` when the value is not a
datetime); then `f"{key.replace('_', ' ').title()}: {value}"`. -/
def format_campsite_field (kv : String × FieldValue) : Except SendError String :=
  if kv.1 == CampsiteContainerFields.BOOKING_URL then
    .ok (pyTitle (pyUnderscoreToSpace "booking_link") ++ ": " ++ kv.2.render)
  else if kv.1 == CampsiteContainerFields.BOOKING_DATE
      || kv.1 == CampsiteContainerFields.BOOKING_END_DATE then
    match kv.2 with
    | .datetime d => .ok (pyTitle (pyUnderscoreToSpace kv.1) ++ ": " ++ d.strftimeYMD)
    | _ => .error .attributeError
  else
    .ok (pyTitle (pyUnderscoreToSpace kv.1) ++ ": " ++ kv.2.render)

/-- The field loop of `send_campsites`, in iteration order; the first failing
field aborts the loop (Python raises there). -/
def format_campsite_fields : List (String × FieldValue) → Except SendError (List String)
  | [] => .ok []
  | kv :: rest =>
    match format_campsite_field kv with
    | .error e => .error e
    | .ok line =>
      match format_campsite_fields rest with
      | .error e => .error e
      | .ok lines => .ok (line :: lines)

/-- `composed_message = "\n".join(fields)` over the record's field mapping. -/
def compose_campsite_message (c : AvailableCampsite) : Except SendError String :=
  match format_campsite_fields c.dict with
  | .error e => .error e
  | .ok fields => .ok (String.intercalate "\n" fields)

/-- `message_title`: `f"{recreation_area} | {facility_name} | {booking_date:%Y-%m-%d}"`. -/
def campsite_message_title (c : AvailableCampsite) : String :=
  c.recreation_area ++ " | " ++ c.facility_name ++ " | " ++ c.booking_date.strftimeYMD

/-- The loop of `send_campsites`: per record, compose the message, compute the
title, and call `send_message(message=…, title=…, type="note")`.  `net` gives
the service's response to the `i`-th POST of the batch; `idx` counts the
records already processed (one POST each).  An exception from any record stops
the loop. -/
def send_campsites_from (cfg : PushbulletConfig) (net : Nat → PostCall → HttpResponse) :
    Nat → List AvailableCampsite → List PostCall × Except SendError Unit
  | _, [] => ([], .ok ())
  | idx, c :: rest =>
    match compose_campsite_message c with
    | .error e => ([], .error e)
    | .ok composed_message =>
      let r := send_message cfg composed_message
        [("title", JsonValue.str (campsite_message_title c)),
         ("type", JsonValue.str "note")] (net idx)
      match r.result with
      | .error e => (r.calls, .error e)
      | .ok _ =>
        let tail := send_campsites_from cfg net (idx + 1) rest
        (r.calls ++ tail.1, tail.2)

/-- `PushbulletNotifications.send_campsites(campsites, **kwargs)`.  The
`kwargs` parameter is accepted but never read by the source. -/
def send_campsites (cfg : PushbulletConfig) (campsites : List AvailableCampsite)
    (kwargs : List (String × JsonValue)) (net : Nat → PostCall → HttpResponse) :
    List PostCall × Except SendError Unit :=
  send_campsites_from cfg net 0 campsites

/-! ## Spec-side definitions

The claim about the batch formatting speaks of labels as "the snake-case name
with underscores replaced by spaces and each word capitalized".  The
definitions below follow those words: split at spaces, capitalize each word,
join with spaces.  They are compared against the source-side
`format_campsite_field` in the refinement theorems. -/

/-- Split a character list into words at space characters (words may be
empty; the result is never the empty list). -/
def splitOnSpaceChars : List Char → List (List Char)
  | [] => [[]]
  | c :: cs =>
    if c = ' ' then
      [] :: splitOnSpaceChars cs
    else
      match splitOnSpaceChars cs with
      | [] => [[c]]
      | w :: ws => (c :: w) :: ws

/-- Join words with single spaces (inverse of `splitOnSpaceChars`). -/
def joinWordsWithSpace : List (List Char) → List Char
  | [] => []
  | [w] => w
  | w :: ws => w ++ ' ' :: joinWordsWithSpace ws

/-- Capitalize one word: first character uppercased, the rest lowercased. -/
def capitalizeWord : List Char → List Char
  | [] => []
  | c :: cs => c.toUpper :: cs.map Char.toLower

/-- Spec-side label formatting: "the snake-case name with underscores replaced
by spaces and each word capitalized". -/
def spec_title_case (key : String) : String :=
  String.mk (joinWordsWithSpace
    ((splitOnSpaceChars (key.data.map (fun c => if c = '_' then ' ' else c))).map
      capitalizeWord))

/-- Spec-side label of a field: the `booking_url` label is renamed to
`"Booking Link"`; every other label is the Title-Cased snake-case name. -/
def spec_field_label (key : String) : String :=
  if key = "booking_url" then "Booking Link" else spec_title_case key

/-- Spec-side body line of one field: `"<Label>: <value>"`, where the
`booking_date` / `booking_end_date` values are rendered as `YYYY-MM-DD`. -/
def spec_field_line (kv : String × FieldValue) : String :=
  let valueStr :=
    if kv.1 = "booking_date" ∨ kv.1 = "booking_end_date" then
      match kv.2 with
      | .datetime d => d.strftimeYMD
      | v => v.render
    else kv.2.render
  spec_field_label kv.1 ++ ": " ++ valueStr

/-- The lowercase ASCII letters. -/
def lowercaseLetters : List Char := "abcdefghijklmnopqrstuvwxyz".data

/-- A snake-case field name: lowercase ASCII letters and underscores. -/
def SnakeKey (key : String) : Prop :=
  ∀ c ∈ key.data, c ∈ lowercaseLetters ∨ c = '_'

instance : DecidablePred SnakeKey := fun _ =>
  inferInstanceAs (Decidable (∀ _ ∈ _, _ ∨ _))

/-- The well-formedness of one Availability Record assumed by the formatting
claims: the extra descriptive fields have snake-case names and none of them
shadows the two datetime-valued booking-date fields. -/
def CampsiteOk (c : AvailableCampsite) : Prop :=
  ∀ kv ∈ c.other_fields,
    SnakeKey kv.1 ∧ kv.1 ≠ "booking_date" ∧ kv.1 ≠ "booking_end_date"

instance : DecidablePred CampsiteOk := fun _ =>
  inferInstanceAs (Decidable (∀ _ ∈ _, _ ∧ _))

/-! ## Title-casing: the source's `str.title()` agrees with the spec's
word-by-word capitalization on snake-case input. -/

theorem lowercase_facts :
    ∀ c ∈ lowercaseLetters, c.isAlpha = true ∧ c.toLower = c ∧ c ≠ ' ' := by
  decide

theorem splitOnSpaceChars_ne_nil (l : List Char) : splitOnSpaceChars l ≠ [] := by
  induction l with
  | nil => simp [splitOnSpaceChars]
  | cons c cs ih =>
    simp only [splitOnSpaceChars]
    split
    · simp
    · cases h : splitOnSpaceChars cs <;> simp

theorem splitOnSpaceChars_head (l : List Char) :
    ∀ w ws, splitOnSpaceChars l = w :: ws → ∀ x ∈ w, x ∈ l ∧ x ≠ ' ' := by
  induction l with
  | nil =>
    intro w ws hsplit x hx
    simp only [splitOnSpaceChars] at hsplit
    cases hsplit
    simp at hx
  | cons c cs ih =>
    intro w ws hsplit x hx
    simp only [splitOnSpaceChars] at hsplit
    by_cases hc : c = ' '
    · rw [if_pos hc] at hsplit
      cases hsplit
      simp at hx
    · rw [if_neg hc] at hsplit
      cases h : splitOnSpaceChars cs with
      | nil => exact absurd h (splitOnSpaceChars_ne_nil cs)
      | cons w2 ws2 =>
        rw [h] at hsplit
        injection hsplit with h1 h2
        subst h1
        rcases List.mem_cons.mp hx with rfl | hx2
        · exact ⟨List.mem_cons_self _ _, hc⟩
        · obtain ⟨hmem, hne⟩ := ih w2 ws2 h x hx2
          exact ⟨List.mem_cons_of_mem _ hmem, hne⟩

theorem joinWordsWithSpace_cons_cons (a : Char) (w : List Char)
    (ws : List (List Char)) :
    joinWordsWithSpace ((a :: w) :: ws) = a :: joinWordsWithSpace (w :: ws) := by
  cases ws <;> rfl

theorem joinWordsWithSpace_nil_cons (w : List Char) (ws : List (List Char)) :
    joinWordsWithSpace ([] :: w :: ws) = ' ' :: joinWordsWithSpace (w :: ws) := rfl

theorem pyTitleAux_splitOnSpace (l : List Char)
    (h : ∀ c ∈ l, c ∈ lowercaseLetters ∨ c = ' ') :
    pyTitleAux false l =
      joinWordsWithSpace ((splitOnSpaceChars l).map capitalizeWord) ∧
    ∀ w ws, splitOnSpaceChars l = w :: ws →
      pyTitleAux true l = joinWordsWithSpace (w :: ws.map capitalizeWord) := by
  induction l with
  | nil =>
    refine ⟨rfl, ?_⟩
    intro w ws hsplit
    simp only [splitOnSpaceChars] at hsplit
    cases hsplit
    rfl
  | cons c cs ih =>
    have hc := h c (List.mem_cons_self _ _)
    have hcs : ∀ x ∈ cs, x ∈ lowercaseLetters ∨ x = ' ' := fun x hx =>
      h x (List.mem_cons_of_mem _ hx)
    obtain ⟨ihf, iht⟩ := ih hcs
    obtain ⟨w2, ws2, hsplit2⟩ :
        ∃ w2 ws2, splitOnSpaceChars cs = w2 :: ws2 := by
      cases hmatch : splitOnSpaceChars cs with
      | nil => exact absurd hmatch (splitOnSpaceChars_ne_nil cs)
      | cons a b => exact ⟨a, b, rfl⟩
    by_cases hsp : c = ' '
    · subst hsp
      have halpha : (' ' : Char).isAlpha = false := by decide
      have hstep : ∀ b : Bool, pyTitleAux b (' ' :: cs) = ' ' :: pyTitleAux false cs := by
        intro b
        simp [pyTitleAux, halpha]
      have hsplitl : splitOnSpaceChars (' ' :: cs) = [] :: w2 :: ws2 := by
        simp [splitOnSpaceChars, hsplit2]
      have hcapnil : capitalizeWord [] = [] := rfl
      constructor
      · rw [hstep, hsplitl, ihf, hsplit2]
        simp only [List.map_cons, hcapnil]
        rw [joinWordsWithSpace_nil_cons]
      · intro w ws hsplit
        rw [hsplitl] at hsplit
        injection hsplit with h1 h2
        subst h1
        subst h2
        rw [hstep, ihf, hsplit2]
        simp only [List.map_cons]
        rw [joinWordsWithSpace_nil_cons]
    · have hlow : c ∈ lowercaseLetters := by
        rcases hc with hlc | habs
        · exact hlc
        · exact absurd habs hsp
      obtain ⟨halpha, htl, _⟩ := lowercase_facts c hlow
      have hw2 : w2.map Char.toLower = w2 := by
        have hfix : ∀ x ∈ w2, Char.toLower x = x := by
          intro x hx
          obtain ⟨hmem, hne⟩ := splitOnSpaceChars_head cs w2 ws2 hsplit2 x hx
          rcases hcs x hmem with hxl | hxs
          · exact (lowercase_facts x hxl).2.1
          · exact absurd hxs hne
        calc w2.map Char.toLower = w2.map id := List.map_congr_left hfix
          _ = w2 := List.map_id _
      have hsplitl : splitOnSpaceChars (c :: cs) = (c :: w2) :: ws2 := by
        simp [splitOnSpaceChars, hsp, hsplit2]
      have hcap : capitalizeWord (c :: w2) = c.toUpper :: w2 := by
        simp [capitalizeWord, hw2]
      constructor
      · have : pyTitleAux false (c :: cs) = c.toUpper :: pyTitleAux true cs := by
          simp [pyTitleAux, halpha]
        rw [this, iht w2 ws2 hsplit2, hsplitl]
        simp only [List.map_cons, hcap]
        rw [joinWordsWithSpace_cons_cons]
      · intro w ws hsplit
        rw [hsplitl] at hsplit
        injection hsplit with h1 h2
        subst h1
        subst h2
        have hstep : pyTitleAux true (c :: cs) = c :: pyTitleAux true cs := by
          simp [pyTitleAux, halpha, htl]
        rw [hstep, iht w2 ws2 hsplit2, joinWordsWithSpace_cons_cons]

/-- On a snake-case key, the source's `key.replace("_", " ").title()` computes
exactly the spec's "underscores replaced by spaces and each word capitalized"
label. -/
theorem pyTitle_snake (key : String) (h : SnakeKey key) :
    pyTitle (pyUnderscoreToSpace key) = spec_title_case key := by
  have hls : ∀ x ∈ key.data.map (fun c => if c = '_' then ' ' else c),
      x ∈ lowercaseLetters ∨ x = ' ' := by
    intro x hx
    obtain ⟨c, hc, rfl⟩ := List.mem_map.mp hx
    by_cases hund : c = '_'
    · right; simp [hund]
    · left
      rcases h c hc with hlc | habs
      · simpa [hund] using hlc
      · exact absurd habs hund
  have := (pyTitleAux_splitOnSpace _ hls).1
  simp only [pyTitle, pyUnderscoreToSpace, spec_title_case]
  exact congrArg String.mk this

/-- One field of the record is rendered by the source exactly as the spec's
line `"<Label>: <value>"` prescribes, provided the field name is snake-case
and a booking-date field holds a datetime. -/
theorem format_campsite_field_eq_spec (kv : String × FieldValue)
    (hkey : SnakeKey kv.1)
    (hdate : kv.1 = "booking_date" ∨ kv.1 = "booking_end_date" →
      ∃ d, kv.2 = FieldValue.datetime d) :
    format_campsite_field kv = .ok (spec_field_line kv) := by
  obtain ⟨key, value⟩ := kv
  by_cases hurl : key = "booking_url"
  · subst hurl
    rfl
  · by_cases hbd : key = "booking_date"
    · subst hbd
      obtain ⟨d, rfl⟩ := hdate (Or.inl rfl)
      rfl
    · by_cases hbe : key = "booking_end_date"
      · subst hbe
        obtain ⟨d, rfl⟩ := hdate (Or.inr rfl)
        rfl
      · have h1 : (key == CampsiteContainerFields.BOOKING_URL) = false := by
          simpa [CampsiteContainerFields.BOOKING_URL] using hurl
        have h2 : (key == CampsiteContainerFields.BOOKING_DATE) = false := by
          simpa [CampsiteContainerFields.BOOKING_DATE] using hbd
        have h3 : (key == CampsiteContainerFields.BOOKING_END_DATE) = false := by
          simpa [CampsiteContainerFields.BOOKING_END_DATE] using hbe
        simp only [format_campsite_field, h1, h2, h3, Bool.false_eq_true, if_false,
          Bool.or_self, spec_field_line, spec_field_label, if_neg hurl,
          if_neg (by simp [hbd, hbe] : ¬(key = "booking_date" ∨ key = "booking_end_date"))]
        rw [pyTitle_snake key hkey]

/-- The field loop agrees with the spec's lines field by field. -/
theorem format_campsite_fields_eq_spec (l : List (String × FieldValue))
    (h : ∀ kv ∈ l, format_campsite_field kv = .ok (spec_field_line kv)) :
    format_campsite_fields l = .ok (l.map spec_field_line) := by
  induction l with
  | nil => rfl
  | cons kv rest ih =>
    have hkv := h kv (List.mem_cons_self _ _)
    have hrest := ih fun x hx => h x (List.mem_cons_of_mem _ hx)
    simp only [format_campsite_fields, hkv, hrest, List.map_cons]

/-- Refinement: the composed message body is exactly the newline-join of the
spec's `"<Label>: <value>"` lines over the record's field mapping. -/
theorem compose_campsite_message_eq_spec (c : AvailableCampsite)
    (h : CampsiteOk c) :
    compose_campsite_message c =
      .ok (String.intercalate "\n" (c.dict.map spec_field_line)) := by
  have hfields : ∀ kv ∈ c.dict, format_campsite_field kv = .ok (spec_field_line kv) := by
    intro kv hkv
    simp only [AvailableCampsite.dict, List.cons_append, List.nil_append,
      List.mem_cons] at hkv
    rcases hkv with rfl | rfl | rfl | rfl | rfl | hother
    · exact format_campsite_field_eq_spec _
        (show SnakeKey "recreation_area" by decide)
        (fun habs => absurd habs
          (show ¬("recreation_area" = "booking_date" ∨
            "recreation_area" = "booking_end_date") by decide))
    · exact format_campsite_field_eq_spec _
        (show SnakeKey "facility_name" by decide)
        (fun habs => absurd habs
          (show ¬("facility_name" = "booking_date" ∨
            "facility_name" = "booking_end_date") by decide))
    · exact format_campsite_field_eq_spec _
        (show SnakeKey "booking_date" by decide)
        (fun _ => ⟨c.booking_date, rfl⟩)
    · exact format_campsite_field_eq_spec _
        (show SnakeKey "booking_end_date" by decide)
        (fun _ => ⟨c.booking_end_date, rfl⟩)
    · exact format_campsite_field_eq_spec _
        (show SnakeKey "booking_url" by decide)
        (fun habs => absurd habs
          (show ¬("booking_url" = "booking_date" ∨
            "booking_url" = "booking_end_date") by decide))
    · obtain ⟨hsnake, hbd, hbe⟩ := h kv hother
      exact format_campsite_field_eq_spec _ hsnake
        (fun habs => absurd habs (by simp [hbd, hbe]))
  simp only [compose_campsite_message, format_campsite_fields_eq_spec _ hfields]

/-- The POST that `send_campsites` issues for one record with title `title`
and composed body `body`. -/
def campsitePost (cfg : PushbulletConfig) (title body : String) : PostCall :=
  { url := cfg.PUSHBULLET_API_ENDPOINT
    headers := dictUpdate (cfg.API_HEADERS.map (fun p => (p.1, some p.2)))
      "Access-Token" cfg.API_TOKEN
    json := [("type", JsonValue.str "note"), ("title", JsonValue.str title),
             ("body", JsonValue.str body)] }

/-- Evaluation of `send_message` at the argument shape `send_campsites` uses:
`send_message(message=body, title=…, type="note")`. -/
theorem send_message_campsite_eval (cfg : PushbulletConfig) (b t : String)
    (net : PostCall → HttpResponse) :
    send_message cfg b
      [("title", JsonValue.str t), ("type", JsonValue.str "note")] net =
      { config := cfg
        calls := [campsitePost cfg t b]
        result :=
          if (net (campsitePost cfg t b)).isErrorStatus then
            .error (.delivery (net (campsitePost cfg t b)).text
              ⟨(net (campsitePost cfg t b)).status_code⟩)
          else
            .ok (net (campsitePost cfg t b)) } := by
  simp [send_message, campsitePost, dictCopy, dictLookup]
  split <;> rfl

/-- Running the batch loop over `pre ++ suf` when every record of `pre`
composes (body `B`) and every response in `pre`'s index range is a success:
the `pre` calls happen in order, then the loop continues with `suf`. -/
theorem send_campsites_from_append (cfg : PushbulletConfig)
    (net : Nat → PostCall → HttpResponse) (B : AvailableCampsite → String)
    (pre suf : List AvailableCampsite) :
    ∀ idx : Nat,
      (∀ c ∈ pre, compose_campsite_message c = .ok (B c)) →
      (∀ i call, idx ≤ i → i < idx + pre.length → ¬(net i call).isErrorStatus) →
      send_campsites_from cfg net idx (pre ++ suf) =
        (pre.map (fun c => campsitePost cfg (campsite_message_title c) (B c)) ++
           (send_campsites_from cfg net (idx + pre.length) suf).1,
         (send_campsites_from cfg net (idx + pre.length) suf).2) := by
  induction pre with
  | nil =>
    intro idx _ _
    simp
  | cons c rest ih =>
    intro idx hcomp hnet
    have hc := hcomp c (List.mem_cons_self _ _)
    have hok : ¬(net idx (campsitePost cfg (campsite_message_title c) (B c))).isErrorStatus :=
      hnet idx _ (Nat.le_refl _) (by simp only [List.length_cons]; omega)
    have htail := ih (idx + 1)
      (fun x hx => hcomp x (List.mem_cons_of_mem _ hx))
      (fun i call h1 h2 => hnet i call (by omega)
        (by simp only [List.length_cons]; omega))
    simp only [List.cons_append, send_campsites_from, hc,
      send_message_campsite_eval, if_neg hok, List.append_eq]
    rw [htail]
    have hidx : idx + 1 + rest.length = idx + (c :: rest).length := by
      simp only [List.length_cons]; omega
    rw [hidx]
    simp

/-- All-success run of the batch loop: one call per record, in order. -/
theorem send_campsites_from_ok (cfg : PushbulletConfig)
    (net : Nat → PostCall → HttpResponse) (B : AvailableCampsite → String)
    (cs : List AvailableCampsite) (idx : Nat)
    (hcomp : ∀ c ∈ cs, compose_campsite_message c = .ok (B c))
    (hnet : ∀ i call, ¬(net i call).isErrorStatus) :
    send_campsites_from cfg net idx cs =
      (cs.map (fun c => campsitePost cfg (campsite_message_title c) (B c)),
       .ok ()) := by
  have h := send_campsites_from_append cfg net B cs [] idx hcomp
    (fun i call _ _ => hnet i call)
  simpa [send_campsites_from] using h

/-- Failure step: when the response to the call for the head record is an
error status, its `DeliveryError` escapes and the loop stops. -/
theorem send_campsites_from_fail (cfg : PushbulletConfig)
    (net : Nat → PostCall → HttpResponse) (idx : Nat)
    (ck : AvailableCampsite) (post : List AvailableCampsite) (b : String)
    (hck : compose_campsite_message ck = .ok b)
    (herr : ∀ call, (net idx call).isErrorStatus) :
    send_campsites_from cfg net idx (ck :: post) =
      ([campsitePost cfg (campsite_message_title ck) b],
       .error (.delivery
         (net idx (campsitePost cfg (campsite_message_title ck) b)).text
         ⟨(net idx (campsitePost cfg (campsite_message_title ck) b)).status_code⟩)) := by
  simp only [send_campsites_from, hck, send_message_campsite_eval,
    if_pos (herr _)]

/-- Every call the batch loop issues is the canonical per-record POST:
payload exactly `type = "note"`, the computed title, and a body. -/
theorem send_campsites_from_calls_shape (cfg : PushbulletConfig)
    (net : Nat → PostCall → HttpResponse) :
    ∀ (cs : List AvailableCampsite) (idx : Nat)
      (call : PostCall), call ∈ (send_campsites_from cfg net idx cs).1 →
      ∃ c ∈ cs, ∃ b, call = campsitePost cfg (campsite_message_title c) b := by
  intro cs
  induction cs with
  | nil =>
    intro idx call h
    simp [send_campsites_from] at h
  | cons c rest ih =>
    intro idx call h
    simp only [send_campsites_from] at h
    cases hc : compose_campsite_message c with
    | error e =>
      rw [hc] at h
      simp at h
    | ok b =>
      simp only [hc, send_message_campsite_eval] at h
      by_cases herr : (net idx (campsitePost cfg (campsite_message_title c) b)).isErrorStatus
      · rw [if_pos herr] at h
        simp at h
        exact ⟨c, List.mem_cons_self _ _, b, h⟩
      · rw [if_neg herr] at h
        simp at h
        rcases h with rfl | htail
        · exact ⟨c, List.mem_cons_self _ _, b, rfl⟩
        · obtain ⟨c2, hc2, b2, rfl⟩ := ih (idx + 1) call htail
          exact ⟨c2, List.mem_cons_of_mem _ hc2, b2, rfl⟩

/-! ## Concrete sample inputs used to instantiate the theorems. -/

/-- A sample configuration (a concrete test input). -/
def sampleConfig : PushbulletConfig :=
  { API_TOKEN := some "token123"
    API_HEADERS := [("Content-Type", "application/json")]
    PUSHBULLET_API_ENDPOINT := "https://api.pushbullet.com/v2/pushes" }

/-- A service that always answers 200 OK. -/
def sampleOkNet : PostCall → HttpResponse := fun _ => ⟨200, "ok"⟩

/-- A service that always answers 400 Bad Request. -/
def sampleErrNet : PostCall → HttpResponse := fun _ => ⟨400, "bad request"⟩

/-- A service that answers every call of a batch with 200 OK. -/
def sampleOkNetSeq : Nat → PostCall → HttpResponse := fun _ _ => ⟨200, "ok"⟩

/-- A service that answers every call of a batch with 500. -/
def sampleErrNetSeq : Nat → PostCall → HttpResponse := fun _ _ => ⟨500, "server error"⟩

/-- A sample availability record (the spec's worked example, plus one extra
descriptive field). -/
def sampleRecord : AvailableCampsite :=
  { recreation_area := "Yosemite"
    facility_name := "Upper Pines"
    booking_date := ⟨2023, 6, 1⟩
    booking_end_date := ⟨2023, 6, 2⟩
    booking_url := "http://x"
    other_fields := [("campsite_id", .num 42)] }

/-- `pat` occurs inside `s`. -/
def strContains (s pat : String) : Prop := ∃ a b, s = a ++ pat ++ b

/-! ## The claims. -/

/-- C2: for every call to `send_message`, exactly one POST is issued; a
success-status response is returned unchanged, and a non-success (error)
status makes the operation fail with a `DeliveryError` whose message is the
response body text and whose cause is the underlying HTTP-status error — the
error is the call's result (propagated, never swallowed). -/
theorem send_message_status_contract (cfg : PushbulletConfig) (message : String)
    (kwargs : List (String × JsonValue)) (net : PostCall → HttpResponse)
    (hbody : ∀ kv ∈ kwargs, kv.1 ≠ "body") :
    ∃ call, (send_message cfg message kwargs net).calls = [call] ∧
      (¬(net call).isErrorStatus →
        (send_message cfg message kwargs net).result = .ok (net call)) ∧
      ((net call).isErrorStatus →
        (send_message cfg message kwargs net).result =
          .error (.delivery (net call).text ⟨(net call).status_code⟩)) := by
  have hguard : ((kwargs.filter
      (fun p => !(p.1 == "type") && !(p.1 == "title"))).any
        (fun p => p.1 == "body")) = false := by
    rw [List.any_eq_false]
    intro p hp
    have hmem := (List.mem_filter.mp hp).1
    simpa using hbody p hmem
  refine ⟨{ url := cfg.PUSHBULLET_API_ENDPOINT
            headers := dictUpdate (cfg.API_HEADERS.map (fun p => (p.1, some p.2)))
              "Access-Token" cfg.API_TOKEN
            json := ("type", (dictLookup "type" kwargs).getD (JsonValue.str "note")) ::
              ("title", (dictLookup "title" kwargs).getD
                (JsonValue.str "Camply Notification")) ::
              ("body", JsonValue.str message) ::
              kwargs.filter (fun p => !(p.1 == "type") && !(p.1 == "title")) },
    ?_, ?_, ?_⟩ <;>
    simp only [send_message, dictCopy, hguard, Bool.false_eq_true, if_false]
  · split <;> rfl
  · intro h
    rw [if_neg h]
  · intro h
    rw [if_pos h]

/-- C3: construction fails exactly when the access token is absent or the
empty string; the error message names the setup command and the environment
variable; and construction issues zero network calls in every case. -/
theorem pushbullet_init_contract (tok : Option String)
    (headers : List (String × String)) (endpoint : String) :
    ((∃ msg, (pushbullet_init ⟨tok, headers, endpoint⟩).2 = .error msg) ↔
      tok = none ∨ tok = some "") ∧
    (pushbullet_init ⟨tok, headers, endpoint⟩).1 = [] ∧
    (∀ msg, (pushbullet_init ⟨tok, headers, endpoint⟩).2 = .error msg →
      strContains msg "camply configure" ∧
        strContains msg "PUSHBULLET_API_TOKEN") := by
  have hc1 : strContains pushbullet_warning_message "camply configure" :=
    ⟨"Pushbullet is not configured properly. To send Pushbullet messages " ++
       "make sure to run `",
     "` or set the proper environment variable: `PUSHBULLET_API_TOKEN`.",
     by rfl⟩
  have hc2 : strContains pushbullet_warning_message "PUSHBULLET_API_TOKEN" :=
    ⟨"Pushbullet is not configured properly. To send Pushbullet messages " ++
       "make sure to run `camply configure` or set the " ++
       "proper environment variable: `",
     "`.",
     by rfl⟩
  unfold pushbullet_init
  split
  next h =>
    refine ⟨⟨fun _ => h, fun _ => ⟨pushbullet_warning_message, rfl⟩⟩, rfl, ?_⟩
    intro msg hmsg
    have hmsgeq : pushbullet_warning_message = msg := Except.error.inj hmsg
    rw [← hmsgeq]
    exact ⟨hc1, hc2⟩
  next h =>
    refine ⟨⟨fun ⟨msg, habs⟩ => Except.noConfusion habs, fun hor => absurd hor h⟩,
      rfl, ?_⟩
    intro msg hmsg
    exact Except.noConfusion hmsg

/-- C4: `send_message` with no options issues exactly one POST to the fixed
endpoint with payload `type = "note"`, `title = "Camply Notification"`,
`body = text` and headers = base headers plus the `Access-Token` entry;
supplying a `type` or `title` option replaces the corresponding default. -/
theorem send_message_default_payload (cfg : PushbulletConfig) (text : String)
    (net : PostCall → HttpResponse) (v w : JsonValue)
    (hat : ∀ kv ∈ cfg.API_HEADERS, kv.1 ≠ "Access-Token") :
    (send_message cfg text [] net).calls =
      [{ url := cfg.PUSHBULLET_API_ENDPOINT
         headers := cfg.API_HEADERS.map (fun p => (p.1, some p.2)) ++
           [("Access-Token", cfg.API_TOKEN)]
         json := [("type", JsonValue.str "note"),
                  ("title", JsonValue.str "Camply Notification"),
                  ("body", JsonValue.str text)] }] ∧
    (send_message cfg text [("type", v)] net).calls.map PostCall.json =
      [[("type", v), ("title", JsonValue.str "Camply Notification"),
        ("body", JsonValue.str text)]] ∧
    (send_message cfg text [("title", w)] net).calls.map PostCall.json =
      [[("type", JsonValue.str "note"), ("title", w),
        ("body", JsonValue.str text)]] := by
  have hupd : dictUpdate (cfg.API_HEADERS.map (fun p => (p.1, some p.2)))
      "Access-Token" cfg.API_TOKEN =
      cfg.API_HEADERS.map (fun p => (p.1, some p.2)) ++
        [("Access-Token", cfg.API_TOKEN)] := by
    unfold dictUpdate
    rw [if_neg]
    simp only [List.any_eq_true, not_exists, not_and, Bool.not_eq_true]
    intro p hp
    obtain ⟨q, hq, rfl⟩ := List.mem_map.mp hp
    simpa using hat q hq
  refine ⟨?_, ?_, ?_⟩ <;>
    simp [send_message, dictCopy, dictLookup, hupd] <;>
    split <;> rfl

/-- C5 counterexample: an extra option with the key `body` is not merged into
any outgoing payload — `dict(type=…, title=…, body=message, **kwargs)` raises
a `TypeError` and no POST is made at all. -/
theorem send_message_body_option_not_merged :
    (send_message sampleConfig "hello"
      [("body", JsonValue.str "x")] sampleOkNet).calls = [] ∧
    (send_message sampleConfig "hello"
      [("body", JsonValue.str "x")] sampleOkNet).result = .error .typeError := by
  constructor <;> rfl

/-- C5 (amended): every additional key/value pair beyond the recognized keys
`type` and `title`, except the key `body`, is merged into the outgoing JSON
payload; a pair with key `body` instead raises a `TypeError` before any POST
is made. -/
theorem send_message_extras_merged (cfg : PushbulletConfig) (message : String)
    (kwargs : List (String × JsonValue)) (net : PostCall → HttpResponse)
    (hbody : ∀ kv ∈ kwargs, kv.1 ≠ "body") :
    ∃ call, (send_message cfg message kwargs net).calls = [call] ∧
      ∀ kv ∈ kwargs, kv.1 ≠ "type" → kv.1 ≠ "title" → kv ∈ call.json := by
  have hguard : ((kwargs.filter
      (fun p => !(p.1 == "type") && !(p.1 == "title"))).any
        (fun p => p.1 == "body")) = false := by
    rw [List.any_eq_false]
    intro p hp
    have hmem := (List.mem_filter.mp hp).1
    simpa using hbody p hmem
  refine ⟨{ url := cfg.PUSHBULLET_API_ENDPOINT
            headers := dictUpdate (cfg.API_HEADERS.map (fun p => (p.1, some p.2)))
              "Access-Token" cfg.API_TOKEN
            json := ("type", (dictLookup "type" kwargs).getD (JsonValue.str "note")) ::
              ("title", (dictLookup "title" kwargs).getD
                (JsonValue.str "Camply Notification")) ::
              ("body", JsonValue.str message) ::
              kwargs.filter (fun p => !(p.1 == "type") && !(p.1 == "title")) },
    ?_, ?_⟩
  · simp only [send_message, dictCopy, hguard, Bool.false_eq_true, if_false]
    split <;> rfl
  · intro kv hkv h1 h2
    have hrest : kv ∈ kwargs.filter
        (fun p => !(p.1 == "type") && !(p.1 == "title")) := by
      rw [List.mem_filter]
      exact ⟨hkv, by simp [h1, h2]⟩
    exact List.mem_cons_of_mem _ (List.mem_cons_of_mem _
      (List.mem_cons_of_mem _ hrest))

/-- C7: an empty batch performs zero HTTP calls, raises no error, and returns
normally. -/
theorem send_campsites_empty_batch (cfg : PushbulletConfig)
    (kwargs : List (String × JsonValue))
    (net : Nat → PostCall → HttpResponse) :
    send_campsites cfg [] kwargs net = ([], .ok ()) := rfl

/-- C8: `send_message` never mutates the shared configuration — the base
headers and stored token after a call equal those before it (the call updates
a fresh copy of the base headers), so a repeated call behaves identically. -/
theorem send_message_preserves_config (cfg : PushbulletConfig)
    (message : String) (kwargs : List (String × JsonValue))
    (net : PostCall → HttpResponse) :
    (send_message cfg message kwargs net).config = cfg ∧
    send_message (send_message cfg message kwargs net).config message kwargs net =
      send_message cfg message kwargs net := by
  have hcfg : (send_message cfg message kwargs net).config = cfg := by
    simp only [send_message]
    split
    · rfl
    · split <;> rfl
  exact ⟨hcfg, by rw [hcfg]⟩

/-- C10: construction rejects only a token that is exactly absent or exactly
the empty string; any other value — a whitespace-only string included —
constructs successfully. -/
theorem pushbullet_init_rejects_only_empty (tok : Option String)
    (headers : List (String × String)) (endpoint : String) :
    ((pushbullet_init ⟨tok, headers, endpoint⟩).2 = .ok () ↔
      ¬(tok = none ∨ tok = some "")) ∧
    (pushbullet_init ⟨some " ", headers, endpoint⟩).2 = .ok () := by
  constructor
  · unfold pushbullet_init
    split
    next h => exact ⟨fun habs => Except.noConfusion habs, fun hn => absurd h hn⟩
    next h => exact ⟨fun _ => h, fun _ => rfl⟩
  · simp [pushbullet_init]

/-- C1: a batch of N records produces exactly N POST calls, one per record in
order; each call's payload has type `"note"`, title
`"<recreation_area> | <facility_name> | <YYYY-MM-DD>"`, and a body that is
exactly one `"<Label>: <value>"` line per field of the record in its natural
field-iteration order — with the `booking_url` label renamed to
`"Booking Link"`, the booking-date values rendered `YYYY-MM-DD`, every other
label Title-Cased from its snake-case name, and no field dropped. -/
theorem send_campsites_batch_formats (cfg : PushbulletConfig)
    (campsites : List AvailableCampsite) (kwargs : List (String × JsonValue))
    (net : Nat → PostCall → HttpResponse)
    (hok : ∀ c ∈ campsites, CampsiteOk c)
    (hnet : ∀ i call, ¬(net i call).isErrorStatus) :
    (send_campsites cfg campsites kwargs net).1.length = campsites.length ∧
    (send_campsites cfg campsites kwargs net).1.map PostCall.json =
      campsites.map (fun c =>
        [("type", JsonValue.str "note"),
         ("title", JsonValue.str (c.recreation_area ++ " | " ++ c.facility_name ++
           " | " ++ c.booking_date.strftimeYMD)),
         ("body", JsonValue.str
           (String.intercalate "\n" (c.dict.map spec_field_line)))]) ∧
    (send_campsites cfg campsites kwargs net).2 = .ok () := by
  have hrun := send_campsites_from_ok cfg net
    (fun c => String.intercalate "\n" (c.dict.map spec_field_line)) campsites 0
    (fun c hc => compose_campsite_message_eq_spec c (hok c hc)) hnet
  unfold send_campsites
  rw [hrun]
  refine ⟨by simp, ?_, rfl⟩
  simp [campsitePost, campsite_message_title]

/-- C6: a `DeliveryError` on the k-th record of a batch is not caught: the
records before it have already been sent (one call each, in order), the
failing record's call is the last in the trace, no later record is attempted,
and the error is the batch operation's result. -/
theorem send_campsites_abort_on_failure (cfg : PushbulletConfig)
    (pre : List AvailableCampsite) (ck : AvailableCampsite)
    (post : List AvailableCampsite) (kwargs : List (String × JsonValue))
    (net : Nat → PostCall → HttpResponse)
    (hpre : ∀ c ∈ pre, CampsiteOk c) (hck : CampsiteOk ck)
    (hnetpre : ∀ i call, i < pre.length → ¬(net i call).isErrorStatus)
    (hnetk : ∀ call, (net pre.length call).isErrorStatus) :
    ∃ lastCall,
      (send_campsites cfg (pre ++ ck :: post) kwargs net).1 =
        pre.map (fun c => campsitePost cfg (campsite_message_title c)
          (String.intercalate "\n" (c.dict.map spec_field_line))) ++ [lastCall] ∧
      (send_campsites cfg (pre ++ ck :: post) kwargs net).1.length =
        pre.length + 1 ∧
      (send_campsites cfg (pre ++ ck :: post) kwargs net).2 =
        .error (.delivery (net pre.length lastCall).text
          ⟨(net pre.length lastCall).status_code⟩) := by
  have happ := send_campsites_from_append cfg net
    (fun c => String.intercalate "\n" (c.dict.map spec_field_line)) pre
    (ck :: post) 0
    (fun c hc => compose_campsite_message_eq_spec c (hpre c hc))
    (fun i call _ h2 => hnetpre i call (by omega))
  have hfail := send_campsites_from_fail cfg net (0 + pre.length) ck post
    (String.intercalate "\n" (ck.dict.map spec_field_line))
    (compose_campsite_message_eq_spec ck hck)
    (fun call => by simpa using hnetk call)
  refine ⟨campsitePost cfg (campsite_message_title ck)
    (String.intercalate "\n" (ck.dict.map spec_field_line)), ?_, ?_, ?_⟩ <;>
    unfold send_campsites <;>
    rw [happ, hfail] <;>
    simp

/-- C9: `send_campsites` accepts an options map but ignores it completely —
the run is identical for any two options maps, and every outgoing payload is
exactly type `"note"`, the computed per-record title, and a body; no
caller-supplied option reaches any payload. -/
theorem send_campsites_ignores_kwargs (cfg : PushbulletConfig)
    (campsites : List AvailableCampsite)
    (kwargs kwargs2 : List (String × JsonValue))
    (net : Nat → PostCall → HttpResponse) :
    send_campsites cfg campsites kwargs net =
      send_campsites cfg campsites kwargs2 net ∧
    ∀ call ∈ (send_campsites cfg campsites kwargs net).1,
      ∃ c ∈ campsites, ∃ body, call.json =
        [("type", JsonValue.str "note"),
         ("title", JsonValue.str (c.recreation_area ++ " | " ++ c.facility_name ++
           " | " ++ c.booking_date.strftimeYMD)),
         ("body", JsonValue.str body)] := by
  refine ⟨rfl, ?_⟩
  intro call hcall
  obtain ⟨c, hc, b, rfl⟩ :=
    send_campsites_from_calls_shape cfg net campsites 0 call hcall
  exact ⟨c, hc, b, rfl⟩

/-! ## Witnesses: the claim theorems instantiated at concrete inputs. -/

/-- Witness for C1 at a one-record batch against an all-200 service. -/
theorem send_campsites_batch_formats_witness :
    (send_campsites sampleConfig [sampleRecord] [] sampleOkNetSeq).1.length =
        [sampleRecord].length ∧
    (send_campsites sampleConfig [sampleRecord] [] sampleOkNetSeq).1.map
        PostCall.json =
      [sampleRecord].map (fun c =>
        [("type", JsonValue.str "note"),
         ("title", JsonValue.str (c.recreation_area ++ " | " ++ c.facility_name ++
           " | " ++ c.booking_date.strftimeYMD)),
         ("body", JsonValue.str
           (String.intercalate "\n" (c.dict.map spec_field_line)))]) ∧
    (send_campsites sampleConfig [sampleRecord] [] sampleOkNetSeq).2 = .ok () :=
  send_campsites_batch_formats sampleConfig [sampleRecord] [] sampleOkNetSeq
    (by decide)
    (fun _ _ => show ¬HttpResponse.isErrorStatus ⟨200, "ok"⟩ by decide)

/-- Witness for C2 against a service answering 400. -/
theorem send_message_status_contract_witness :
    ∃ call, (send_message sampleConfig "hello" [] sampleErrNet).calls = [call] ∧
      (¬(sampleErrNet call).isErrorStatus →
        (send_message sampleConfig "hello" [] sampleErrNet).result =
          .ok (sampleErrNet call)) ∧
      ((sampleErrNet call).isErrorStatus →
        (send_message sampleConfig "hello" [] sampleErrNet).result =
          .error (.delivery (sampleErrNet call).text
            ⟨(sampleErrNet call).status_code⟩)) :=
  send_message_status_contract sampleConfig "hello" [] sampleErrNet (by simp)

/-- Witness for C4 at the text `"hello"` and concrete option values. -/
theorem send_message_default_payload_witness :
    (send_message sampleConfig "hello" [] sampleOkNet).calls =
      [{ url := sampleConfig.PUSHBULLET_API_ENDPOINT
         headers := sampleConfig.API_HEADERS.map (fun p => (p.1, some p.2)) ++
           [("Access-Token", sampleConfig.API_TOKEN)]
         json := [("type", JsonValue.str "note"),
                  ("title", JsonValue.str "Camply Notification"),
                  ("body", JsonValue.str "hello")] }] ∧
    (send_message sampleConfig "hello" [("type", JsonValue.str "link")]
        sampleOkNet).calls.map PostCall.json =
      [[("type", JsonValue.str "link"),
        ("title", JsonValue.str "Camply Notification"),
        ("body", JsonValue.str "hello")]] ∧
    (send_message sampleConfig "hello" [("title", JsonValue.str "My Title")]
        sampleOkNet).calls.map PostCall.json =
      [[("type", JsonValue.str "note"), ("title", JsonValue.str "My Title"),
        ("body", JsonValue.str "hello")]] :=
  send_message_default_payload sampleConfig "hello" sampleOkNet
    (JsonValue.str "link") (JsonValue.str "My Title") (by decide)

/-- Witness for C5 (amended) at a caller-chosen extra key `url`. -/
theorem send_message_extras_merged_witness :
    ∃ call, (send_message sampleConfig "hello"
        [("url", JsonValue.str "http://x")] sampleOkNet).calls = [call] ∧
      ∀ kv ∈ [("url", JsonValue.str "http://x")], kv.1 ≠ "type" →
        kv.1 ≠ "title" → kv ∈ call.json :=
  send_message_extras_merged sampleConfig "hello"
    [("url", JsonValue.str "http://x")] sampleOkNet (by decide)

/-- Witness for C6: a one-record batch whose only send fails with a 500. -/
theorem send_campsites_abort_on_failure_witness :
    ∃ lastCall,
      (send_campsites sampleConfig [sampleRecord] [] sampleErrNetSeq).1 =
        [lastCall] ∧
      (send_campsites sampleConfig [sampleRecord] [] sampleErrNetSeq).1.length =
        1 ∧
      (send_campsites sampleConfig [sampleRecord] [] sampleErrNetSeq).2 =
        .error (.delivery (sampleErrNetSeq 0 lastCall).text
          ⟨(sampleErrNetSeq 0 lastCall).status_code⟩) :=
  send_campsites_abort_on_failure sampleConfig [] sampleRecord [] []
    sampleErrNetSeq
    (by simp) (by decide)
    (fun i _ h => absurd h (Nat.not_lt_zero i))
    (fun _ => show HttpResponse.isErrorStatus ⟨500, "server error"⟩ by decide)

end Camply
